import Mathlib

/-!
Shallow embedding of the baby-explorer scanner (TypeScript sources under
src/): the result aggregator (src/results/resultAggregator.ts), the linkage
report rate computation (src/results/linkageReport.ts), the causal context
stack and action-id generation (src/monitors/inputMonitor.ts), and the
request monitor with its URL-to-action mapping store, pending-request
tracker, response/failure handlers and periodic cleanup
(src/monitors/requestMonitor.ts, bundled in src/scanner.ts).

JavaScript `Map` objects are modelled as association lists in insertion
order: `Map.set` updates an existing key in place (keeping its position) or
appends a fresh key at the end, `Map.delete` removes the entry, and
iteration (`Array.from(entries)`) follows the list order.  JavaScript
`Set`s of strings are modelled as duplicate-free lists in insertion order.
Mutation of shared record objects is modelled by indexing into the
aggregator's request list and updating in place with `setNth`.
-/

namespace BabyExplorer

/-- Resource part categories, from the union type `Part["type"]` in
src/types/scanTypes.ts. -/
inductive PartType
  | html
  | js
  | css
  | image
  | font
  | other
  deriving DecidableEq

/-- Action record, from `Action` in src/types/scanTypes.ts. -/
structure Action where
  actionId : String
  type : String
  data : String
  deriving DecidableEq

/-- Resource part record, from `Part` in src/types/scanTypes.ts. -/
structure Part where
  id : String
  type : PartType
  actions : List Action
  deriving DecidableEq

/-- Request record, from `Request` in src/types/scanTypes.ts.  `status` is
an `Int` because the sentinels `-1` and `-999` are negative. -/
structure Request where
  actionId : String
  url : String
  requestSource : String
  method : String
  status : Int
  deriving DecidableEq

/-- Extra page record, from `ExtraPage` in src/types/scanTypes.ts. -/
structure ExtraPage where
  url : String
  parts : List Part
  requests : List Request
  deriving DecidableEq

/-- Scan data, from `ScanData` in src/types/scanTypes.ts. -/
structure ScanData where
  parts : List Part
  requests : List Request
  extraPages : List ExtraPage
  deriving DecidableEq

/-- List lookup by position, mirroring a JavaScript array subscript read. -/
def nth {α : Type} : List α → Nat → Option α
  | [], _ => none
  | a :: _, 0 => some a
  | _ :: l, n + 1 => nth l n

/-- In-place update at a position, mirroring a JavaScript array subscript
write; out-of-range writes leave the list unchanged (they cannot occur on
the paths modelled here). -/
def setNth {α : Type} : List α → Nat → α → List α
  | [], _, _ => []
  | _ :: l, 0, b => b :: l
  | a :: l, n + 1, b => a :: setNth l n b

/-- First index satisfying a predicate, mirroring `Array.prototype.find`
composed with mutation of the found element. -/
def findIdxP {α : Type} (p : α → Bool) : List α → Option Nat
  | [] => none
  | a :: l => if p a then some 0 else (findIdxP p l).map (· + 1)

/-- JavaScript `Map.set`: update the first occurrence of the key in place,
or append a fresh entry at the end. -/
def mapSet {α β : Type} [DecidableEq α] : List (α × β) → α → β → List (α × β)
  | [], k, v => [(k, v)]
  | (k', v') :: rest, k, v =>
    if k' = k then (k, v) :: rest else (k', v') :: mapSet rest k v

/-- JavaScript `Map.get` (as an `Option`). -/
def mapLookup {α β : Type} [DecidableEq α] : List (α × β) → α → Option β
  | [], _ => none
  | (k', v') :: rest, k => if k' = k then some v' else mapLookup rest k

/-- JavaScript `Map.delete`: remove the entry with the given key. -/
def mapDelete {α β : Type} [DecidableEq α] : List (α × β) → α → List (α × β)
  | [], _ => []
  | (k', v') :: rest, k => if k' = k then rest else (k', v') :: mapDelete rest k

/-- JavaScript `Map.has`. -/
def mapHas {α β : Type} [DecidableEq α] (m : List (α × β)) (k : α) : Bool :=
  (mapLookup m k).isSome

/-- Last `n` entries of a list, mirroring `Array.prototype.slice(-n)`. -/
def lastN {α : Type} (n : Nat) (l : List α) : List α :=
  l.drop (l.length - n)

/-- JavaScript `Set.add` for strings: insertion-order list without
duplicates. -/
def setAdd (s : List String) (x : String) : List String :=
  if x ∈ s then s else s ++ [x]

/-- Aggregator state, from the `ResultAggregator` class in
src/results/resultAggregator.ts: the scan data ledger plus the set of all
action ids seen (`actionIdSet`). -/
structure Aggregator where
  scanData : ScanData
  actionIdSet : List String
  deriving DecidableEq

/-- Fresh aggregator, from the `ResultAggregator` constructor. -/
def initAggregator : Aggregator :=
  { scanData := { parts := [], requests := [], extraPages := [] }, actionIdSet := [] }

/-- Append an action to the first part with the given id (the part found by
`parts.find` in the source; its `actions` array is mutated in place). -/
def pushToFirstPart : List Part → String → Action → List Part
  | [], _, _ => []
  | p :: ps, pid, a =>
    if p.id = pid then { p with actions := p.actions ++ [a] } :: ps
    else p :: pushToFirstPart ps pid a

/-- `ResultAggregator.addAction` (src/results/resultAggregator.ts lines
11-25): find the part by id, creating it (with the given type and an empty
action list) when absent, push the action onto it, and record the action id
in `actionIdSet`. -/
def addAction (ag : Aggregator) (partId : String) (action : Action)
    (partType : PartType) : Aggregator :=
  let parts := ag.scanData.parts
  let parts' :=
    if parts.any (fun p => p.id = partId) then pushToFirstPart parts partId action
    else parts ++ [{ id := partId, type := partType, actions := [action] }]
  { scanData := { ag.scanData with parts := parts' },
    actionIdSet := setAdd ag.actionIdSet action.actionId }

/-- `addAction` with the source's default `partType = "html"` (the default
parameter value in src/results/resultAggregator.ts line 14). -/
def addActionDefaultType (ag : Aggregator) (partId : String) (action : Action) :
    Aggregator :=
  addAction ag partId action PartType.html

/-- `ResultAggregator.addResourcePart` (src/results/resultAggregator.ts
lines 27-46): no-op when a part with the id already exists, otherwise
append a new part with an empty action list.  The `url` parameter is
accepted and unused, as in the source. -/
def addResourcePart (ag : Aggregator) (partId : String) (partType : PartType)
    (url : String) : Aggregator :=
  if ag.scanData.parts.any (fun p => p.id = partId) then ag
  else
    { ag with
      scanData :=
        { ag.scanData with
          parts := ag.scanData.parts ++ [{ id := partId, type := partType, actions := [] }] } }

/-- `ResultAggregator.addRequest`: push onto the request ledger. -/
def addRequest (ag : Aggregator) (r : Request) : Aggregator :=
  { ag with scanData := { ag.scanData with requests := ag.scanData.requests ++ [r] } }

/-- Linkage validation result, from `ResultAggregator.validateLinkage`. -/
structure LinkageValidation where
  linkedRequests : Nat
  unlinkedRequests : Nat
  totalActions : Nat
  deriving DecidableEq

/-- `ResultAggregator.validateLinkage` (src/results/resultAggregator.ts
lines 52-65): a request is linked when its `actionId` is in `actionIdSet`. -/
def validateLinkage (ag : Aggregator) : LinkageValidation :=
  let linked := (ag.scanData.requests.filter
    (fun r => decide (r.actionId ∈ ag.actionIdSet))).length
  { linkedRequests := linked,
    unlinkedRequests := ag.scanData.requests.length - linked,
    totalActions := ag.actionIdSet.length }

/-- JavaScript floating-point division restricted to the values arising in
`getLinkageStats`: `none` stands for a non-finite result (`0 / 0 = NaN`,
`x / 0 = Infinity`), otherwise the exact quotient. -/
def jsDiv (a b : Rat) : Option Rat :=
  if b = 0 then none else some (a / b)

/-- The `linkageRate` field computed by `ResultAggregator.getLinkageStats`
(src/results/resultAggregator.ts line 87):
`validation.linkedRequests / this.scanData.requests.length * 100`, with no
guard for an empty ledger. -/
def getLinkageStatsRate (ag : Aggregator) : Option Rat :=
  (jsDiv ((validateLinkage ag).linkedRequests : Rat)
    ((ag.scanData.requests.length : Rat))).map (fun x => x * 100)

/-- All action ids occurring in a list of parts, as used by the `actionMap`
of `generateLinkageReport` (src/results/linkageReport.ts): actions are
flattened out of the parts and keyed by `actionId`. -/
def reportActionIds (parts : List Part) : List String :=
  (parts.flatMap (fun p => p.actions)).map (fun a => a.actionId)

/-- The linkage rate computed by `generateLinkageReport`
(src/results/linkageReport.ts line 30): guarded to `0` when there are no
requests (the source formats the number with `toFixed(1)` afterwards; the
value modelled here is the exact quantity being formatted). -/
def reportLinkageRate (parts : List Part) (requests : List Request) : Rat :=
  let linked := (requests.filter
    (fun r => decide (r.actionId ∈ reportActionIds parts))).length
  if requests.length > 0 then (linked : Rat) / (requests.length : Rat) * 100
  else 0

/-- Action id generated at cause time
(src/monitors/inputMonitor.ts): `action_${Date.now()}_${random}`.  The
timestamp and the random suffix are modelled as explicit `Nat` parameters. -/
def mkActionId (t r : Nat) : String :=
  "action_" ++ Nat.repr t ++ "_" ++ Nat.repr r

/-- Synthetic request id assigned by the `page.on("request")` handler when
no mapping matches (src/scanner.ts): `http_${Date.now()}_${random}`. -/
def mkHttpId (t r : Nat) : String :=
  "http_" ++ Nat.repr t ++ "_" ++ Nat.repr r

/-- Synthetic request id assigned by the `page.on("requestfailed")`
fallback when no request record exists (src/scanner.ts):
`failed_${Date.now()}_${random}`. -/
def mkFailedId (t r : Nat) : String :=
  "failed_" ++ Nat.repr t ++ "_" ++ Nat.repr r

/-- Split a character list at underscores, mirroring
`String.prototype.split('_')`. -/
def splitUnderscoreChars : List Char → List (List Char)
  | [] => [[]]
  | c :: cs =>
    if c = '_' then [] :: splitUnderscoreChars cs
    else
      match splitUnderscoreChars cs with
      | [] => [[c]]
      | g :: gs => (c :: g) :: gs

/-- `String.prototype.split('_')`. -/
def splitUnderscore (s : String) : List String :=
  (splitUnderscoreChars s.data).map (fun l => String.mk l)

/-- JavaScript `parseInt` on the strings arising here: parses a maximal
leading run of decimal digits, `none` standing for `NaN`. -/
def jsParseInt (s : String) : Option Nat :=
  let ds := s.data.takeWhile (fun c => c.isDigit)
  if ds = [] then none
  else some (ds.foldl (fun acc c => acc * 10 + (c.toNat - 48)) 0)

/-- One call to the exposed `reportRequestMapping` function
(src/scanner.ts lines 148-160): insert the url-to-action mapping, then, if
the store holds more than 1000 entries, retain only the most recent 500
(`entries.slice(-500)` over the map's insertion order). -/
def reportMapping (m : List (String × String)) (url actionId : String) :
    List (String × String) :=
  let m' := mapSet m url actionId
  if m'.length > 1000 then lastN 500 m' else m'

/-- Primitive effects performed by the instrumented `window.fetch` and
`XMLHttpRequest` wrappers, in program order: reporting a mapping to the
host, handing the call to the underlying transport (`originalFetch` /
`originalSend`), and recording the WeakMap correlation. -/
inductive NetEffect
  | report (url actionId : String)
  | dispatch (url : String)
  | correlate (url actionId : String)
  deriving DecidableEq

/-- First argument of the wrapped `window.fetch`: a string, a `URL`
object, or a `Request` object (the three cases tested by the wrapper; the
final `String(input)` fallback is unreachable for these).  Each carries the
url the wrapper extracts (`input`, `input.href`, `input.url`). -/
inductive FetchInput
  | str (s : String)
  | urlObj (href : String)
  | requestObj (url : String)
  deriving DecidableEq

/-- Url extraction at the top of the `window.fetch` wrapper
(src/scanner.ts lines 175-185). -/
def extractFetchUrl : FetchInput → String
  | FetchInput.str s => s
  | FetchInput.urlObj href => href
  | FetchInput.requestObj url => url

/-- Effect trace of one call to the wrapped `window.fetch`
(src/scanner.ts lines 169-201): report the mapping (only when a cause is
current), call `originalFetch`, then store the WeakMap correlation on the
returned promise. -/
def fetchWrapperTrace (current : Option String) (input : FetchInput) :
    List NetEffect :=
  let url := extractFetchUrl input
  (match current with
   | some a => [NetEffect.report url a]
   | none => [])
  ++ [NetEffect.dispatch url]
  ++ (match current with
      | some a => [NetEffect.correlate url a]
      | none => [])

/-- Effect trace of one call to the wrapped
`XMLHttpRequest.prototype.send` (src/scanner.ts lines 220-238), given the
action id and url captured by the wrapped `open`: report the mapping,
store the WeakMap correlation, then call `originalSend`. -/
def xhrSendTrace (captured : Option String) (url : String) : List NetEffect :=
  (match captured with
   | some a => [NetEffect.report url a]
   | none => [])
  ++ (match captured with
      | some a => [NetEffect.correlate url a]
      | none => [])
  ++ [NetEffect.dispatch url]

/-- One status write performed on a request record, recorded for
specification purposes: the record's position in the ledger, the status it
held before the write, and the status written. -/
structure WriteEntry where
  idx : Nat
  oldStatus : Int
  newStatus : Int
  deriving DecidableEq

/-- Whole-system state: the browser-side causal context
(`window.__actionIdStack`, `window.__currentActionId` from
src/monitors/inputMonitor.ts), the host-side url-to-action mapping store
(`urlActionMappings`), the pending-request tracker (`pendingRequests`,
storing the position of each in-flight record in the aggregator's request
ledger, which models the shared mutable record object), the aggregator,
and the per-resource-type counter of `RequestMonitor.createResourcePart`.
`writeLog` is specification-only instrumentation recording every status
write; it influences nothing. -/
structure SysState where
  stack : List String
  current : Option String
  mappings : List (String × String)
  pending : List (String × Nat)
  agg : Aggregator
  partCounter : List (PartType × Nat)
  writeLog : List WriteEntry
  deriving DecidableEq

/-- Initial state of a scan session. -/
def initState : SysState :=
  { stack := [], current := none, mappings := [], pending := [],
    agg := initAggregator, partCounter := [], writeLog := [] }

/-- Events of the single cooperative event sequence.  `causeFired` is a
sensitive value read (the instrumented `value` getter) or a wrapped
handler invocation, both of which generate a fresh action id from the
current time `t` and a random suffix `r`; `popTimer` is the guarded
context cleanup scheduled 100ms after a cause; `outbound` is an
intercepted outbound call (fetch style) whose extracted target is `url`;
`hostRequest`, `hostResponse` and `hostRequestFailed` are the host-level
`page.on` handlers, keyed by the transport request id `rid`; `sweep` is
one firing of the 60-second cleanup interval at time `t`. -/
inductive Event
  | causeFired (t r : Nat) (ty data : String)
  | popTimer (actionId : String)
  | outbound (url : String)
  | hostRequest (rid url src method : String) (t r : Nat)
  | hostResponse (rid url : String) (code : Nat)
  | hostRequestFailed (rid url src method : String) (t r : Nat)
  | sweep (t : Nat)
  deriving DecidableEq

/-- The Puppeteer-resource-type-to-part-type map of
`RequestMonitor.createResourcePart` (src/scanner.ts lines 108-124);
unknown types fall back to `other` as in the source's `|| 'other'`. -/
def resourceTypeMap (src : String) : PartType :=
  if src = "document" then PartType.html
  else if src = "script" then PartType.js
  else if src = "stylesheet" then PartType.css
  else if src = "image" then PartType.image
  else if src = "font" then PartType.font
  else PartType.other

/-- Rendering of a part type into the part id
`part_${resourceType}_${counter}`. -/
def partTypeStr : PartType → String
  | PartType.html => "html"
  | PartType.js => "js"
  | PartType.css => "css"
  | PartType.image => "image"
  | PartType.font => "font"
  | PartType.other => "other"

/-- `RequestMonitor.createResourcePart` (src/scanner.ts lines 106-138):
skip the main html document, otherwise bump the per-type counter and
register `part_<type>_<n>` with the aggregator. -/
def createResourcePart (ag : Aggregator) (pc : List (PartType × Nat))
    (url src : String) : Aggregator × List (PartType × Nat) :=
  let rt := resourceTypeMap src
  if rt = PartType.html then (ag, pc)
  else
    let counter := (mapLookup pc rt).getD 0
    let partId := "part_" ++ partTypeStr rt ++ "_" ++ Nat.repr (counter + 1)
    (addResourcePart ag partId rt url, mapSet pc rt (counter + 1))

/-- Write a status onto the request record at position `idx` of the
ledger (the source mutates the shared record object), recording the write
in the specification-only log. -/
def writeStatusLogged (s : SysState) (idx : Nat) (v : Int) : SysState :=
  match nth s.agg.scanData.requests idx with
  | some rec =>
    { s with
      agg :=
        { s.agg with
          scanData :=
            { s.agg.scanData with
              requests := setNth s.agg.scanData.requests idx { rec with status := v } } },
      writeLog := s.writeLog ++ [{ idx := idx, oldStatus := rec.status, newStatus := v }] }
  | none => s

/-- The staleness test of the periodic cleanup (src/scanner.ts lines
350-358): split the record's action id on underscores; when there is a
second component whose `parseInt` is a truthy number below
`now - 5 * 60 * 1000`, the pending entry is deleted. -/
def staleActionId (actionId : String) (t : Nat) : Bool :=
  let parts := splitUnderscore actionId
  if parts.length > 1 then
    match nth parts 1 with
    | some p =>
      match jsParseInt p with
      | some ts => decide (ts ≠ 0) && decide ((ts : Int) < (t : Int) - 300000)
      | none => false
    | none => false
  else false

/-- One step of the system.  Each case is the corresponding handler from
the source, executed to completion (the hook bodies run without internal
suspension, per the single cooperative event sequence). -/
def step (s : SysState) : Event → SysState
  | Event.causeFired t r ty data =>
    -- instrumented value getter / wrapHandler (src/monitors/inputMonitor.ts):
    -- generate the action id, push it, set the current context, and report
    -- the action through reportInputAccess, which calls
    -- aggregator.addAction("part_html_main", action, "html").
    let aid := mkActionId t r
    { s with
      stack := s.stack ++ [aid],
      current := some aid,
      agg := addAction s.agg "part_html_main"
        { actionId := aid, type := ty, data := data } PartType.html }
  | Event.popTimer aid =>
    -- the scheduled setTimeout cleanup: pop only when the top of the stack
    -- still equals the id the cleanup was scheduled for, then recompute
    -- __currentActionId from the new top (undefined when empty).
    if s.stack.getLast? = some aid then
      let st := s.stack.dropLast
      { s with stack := st, current := st.getLast? }
    else s
  | Event.outbound url =>
    -- wrapped fetch / XHR send (src/scanner.ts): when a cause is current,
    -- report the target to the mapping store before dispatch.
    match s.current with
    | some a => { s with mappings := reportMapping s.mappings url a }
    | none => s
  | Event.hostRequest rid url src method t r =>
    -- page.on("request") handler (src/scanner.ts lines 242-278).
    let actionId :=
      match mapLookup s.mappings url with
      | some a => a
      | none => mkHttpId t r
    let cp := createResourcePart s.agg s.partCounter url src
    let record : Request :=
      { actionId := actionId, url := url, requestSource := src,
        method := method, status := -1 }
    let idx := cp.1.scanData.requests.length
    { s with
      agg := addRequest cp.1 record,
      partCounter := cp.2,
      pending := mapSet s.pending rid idx }
  | Event.hostResponse rid url code =>
    -- page.on("response") handler (src/scanner.ts lines 281-305).
    match mapLookup s.pending rid with
    | some idx =>
      let s' := writeStatusLogged s idx (Int.ofNat code)
      { s' with pending := mapDelete s'.pending rid }
    | none =>
      match findIdxP (fun r => r.url = url && r.status = -1)
          s.agg.scanData.requests with
      | some idx => writeStatusLogged s idx (Int.ofNat code)
      | none => s
  | Event.hostRequestFailed rid url src method t r =>
    -- page.on("requestfailed") handler (src/scanner.ts lines 308-343).
    match mapLookup s.pending rid with
    | some idx =>
      let s' := writeStatusLogged s idx (-999)
      { s' with pending := mapDelete s'.pending rid }
    | none =>
      let actionId :=
        match mapLookup s.mappings url with
        | some a => a
        | none => mkFailedId t r
      { s with
        agg := addRequest s.agg
          { actionId := actionId, url := url, requestSource := src,
            method := method, status := -999 } }
  | Event.sweep t =>
    -- the setInterval cleanup (src/scanner.ts lines 346-369).
    let pending' := s.pending.filter (fun p =>
      match nth s.agg.scanData.requests p.2 with
      | some rec => !(staleActionId rec.actionId t)
      | none => true)
    let mappings' :=
      if s.mappings.length > 50 then lastN 25 s.mappings else s.mappings
    { s with pending := pending', mappings := mappings' }

/-- Run a list of events from a state. -/
def runTrace (s : SysState) (tr : List Event) : SysState :=
  tr.foldl step s

/-! Lemmas about the JavaScript `Map`/array models. -/

theorem mapLookup_mapSet_self {α β : Type} [DecidableEq α]
    (m : List (α × β)) (k : α) (v : β) : mapLookup (mapSet m k v) k = some v := by
  induction m with
  | nil => simp [mapSet, mapLookup]
  | cons p rest ih =>
    obtain ⟨k', v'⟩ := p
    by_cases h : k' = k <;> simp [mapSet, mapLookup, h, ih]

theorem mapLookup_mapSet_ne {α β : Type} [DecidableEq α]
    (m : List (α × β)) (k' k : α) (v : β) (h : k' ≠ k) :
    mapLookup (mapSet m k' v) k = mapLookup m k := by
  induction m with
  | nil => simp [mapSet, mapLookup, h]
  | cons p rest ih =>
    obtain ⟨k₁, v₁⟩ := p
    by_cases h1 : k₁ = k' <;> by_cases h2 : k₁ = k <;>
      simp_all [mapSet, mapLookup]

theorem mapLookup_eq_none {α β : Type} [DecidableEq α]
    {m : List (α × β)} {k : α} (h : ∀ p ∈ m, p.1 ≠ k) : mapLookup m k = none := by
  induction m with
  | nil => simp [mapLookup]
  | cons p rest ih =>
    obtain ⟨k₁, v₁⟩ := p
    have hk : k₁ ≠ k := h (k₁, v₁) (by simp)
    simp only [mapLookup, if_neg hk]
    exact ih (fun p hp => h p (by simp [hp]))

theorem mapLookup_ne_of_none {α β : Type} [DecidableEq α]
    {m : List (α × β)} {k : α} (h : mapLookup m k = none) :
    ∀ p ∈ m, p.1 ≠ k := by
  induction m with
  | nil => simp
  | cons p rest ih =>
    obtain ⟨k₁, v₁⟩ := p
    by_cases hk : k₁ = k
    · simp [mapLookup, hk] at h
    · intro q hq
      rcases List.mem_cons.mp hq with hq | hq
      · simpa [hq] using hk
      · exact ih (by simpa [mapLookup, hk] using h) q hq

theorem mapLookup_append {α β : Type} [DecidableEq α]
    (l₁ l₂ : List (α × β)) (k : α) (h : mapLookup l₁ k = none) :
    mapLookup (l₁ ++ l₂) k = mapLookup l₂ k := by
  induction l₁ with
  | nil => simp [mapLookup]
  | cons p rest ih =>
    obtain ⟨k₁, v₁⟩ := p
    by_cases hk : k₁ = k
    · simp [mapLookup, hk] at h
    · simp only [List.cons_append, mapLookup, if_neg hk]
      exact ih (by simpa [mapLookup, hk] using h)

theorem mapSet_of_none {α β : Type} [DecidableEq α]
    {m : List (α × β)} {k : α} (v : β) (h : mapLookup m k = none) :
    mapSet m k v = m ++ [(k, v)] := by
  induction m with
  | nil => simp [mapSet]
  | cons p rest ih =>
    obtain ⟨k₁, v₁⟩ := p
    by_cases hk : k₁ = k
    · simp [mapLookup, hk] at h
    · simp only [mapSet, if_neg hk, List.cons_append, List.cons.injEq, true_and]
      exact ih (by simpa [mapLookup, hk] using h)

theorem mapSet_length_of_some {α β : Type} [DecidableEq α]
    {m : List (α × β)} {k : α} (v : β) (h : (mapLookup m k).isSome) :
    (mapSet m k v).length = m.length := by
  induction m with
  | nil => simp [mapLookup] at h
  | cons p rest ih =>
    obtain ⟨k₁, v₁⟩ := p
    by_cases hk : k₁ = k
    · simp [mapSet, hk]
    · simp only [mapSet, if_neg hk, List.length_cons]
      exact congrArg (· + 1) (ih (by simpa [mapLookup, hk] using h))

theorem mem_mapSet {α β : Type} [DecidableEq α]
    {m : List (α × β)} {k : α} {v : β} {p : α × β} (h : p ∈ mapSet m k v) :
    p ∈ m ∨ p = (k, v) := by
  induction m with
  | nil => simpa [mapSet] using h
  | cons q rest ih =>
    obtain ⟨k₁, v₁⟩ := q
    by_cases hk : k₁ = k
    · simp only [mapSet, if_pos hk] at h
      rcases List.mem_cons.mp h with h | h
      · exact Or.inr h
      · exact Or.inl (List.mem_cons_of_mem _ h)
    · simp only [mapSet, if_neg hk] at h
      rcases List.mem_cons.mp h with h | h
      · exact Or.inl (by simp [h])
      · rcases ih h with h | h
        · exact Or.inl (List.mem_cons_of_mem _ h)
        · exact Or.inr h

theorem mapLookup_mem {α β : Type} [DecidableEq α]
    {m : List (α × β)} {k : α} {v : β} (h : mapLookup m k = some v) :
    (k, v) ∈ m := by
  induction m with
  | nil => simp [mapLookup] at h
  | cons p rest ih =>
    obtain ⟨k₁, v₁⟩ := p
    by_cases hk : k₁ = k
    · simp only [mapLookup, if_pos hk, Option.some.injEq] at h
      simp [hk, h]
    · exact List.mem_cons_of_mem _ (ih (by simpa [mapLookup, hk] using h))

theorem mapDelete_sublist {α β : Type} [DecidableEq α]
    (m : List (α × β)) (k : α) : (mapDelete m k).Sublist m := by
  induction m with
  | nil => simp [mapDelete]
  | cons p rest ih =>
    obtain ⟨k₁, v₁⟩ := p
    by_cases hk : k₁ = k
    · simpa [mapDelete, hk] using List.sublist_cons_self (k₁, v₁) rest
    · simpa [mapDelete, hk] using ih.cons₂ (k₁, v₁)

theorem mapDelete_snd_ne {α β : Type} [DecidableEq α]
    {m : List (α × β)} {k : α} {v : β} (h : mapLookup m k = some v)
    (hp : m.Pairwise (fun a b => a.2 ≠ b.2)) :
    ∀ p ∈ mapDelete m k, p.2 ≠ v := by
  induction m with
  | nil => simp [mapLookup] at h
  | cons q rest ih =>
    obtain ⟨k₁, v₁⟩ := q
    rw [List.pairwise_cons] at hp
    by_cases hk : k₁ = k
    · simp only [mapLookup, if_pos hk, Option.some.injEq] at h
      intro p hmem
      simp only [mapDelete, if_pos hk] at hmem
      exact fun hpv => (hp.1 p hmem) (h ▸ hpv ▸ rfl)
    · simp only [mapLookup, if_neg hk] at h
      intro p hmem
      simp only [mapDelete, if_neg hk] at hmem
      rcases List.mem_cons.mp hmem with hmem | hmem
      · have : (k, v) ∈ rest := mapLookup_mem h
        exact fun hpv => (hp.1 (k, v) this) (by simp [hmem] at hpv; simp [hpv])
      · exact ih h hp.2 p hmem

theorem pairwise_mapSet {α β : Type} [DecidableEq α]
    {m : List (α × β)} (k : α) {v : β} (hv : ∀ p ∈ m, p.2 ≠ v)
    (hm : m.Pairwise (fun a b => a.2 ≠ b.2)) :
    (mapSet m k v).Pairwise (fun a b => a.2 ≠ b.2) := by
  induction m with
  | nil => simp [mapSet]
  | cons q rest ih =>
    obtain ⟨k₁, v₁⟩ := q
    rw [List.pairwise_cons] at hm
    by_cases hk : k₁ = k
    · simp only [mapSet, if_pos hk]
      rw [List.pairwise_cons]
      exact ⟨fun p hp hvp => (hv p (List.mem_cons_of_mem _ hp)) hvp.symm, hm.2⟩
    · simp only [mapSet, if_neg hk]
      rw [List.pairwise_cons]
      constructor
      · intro p hp
        rcases mem_mapSet hp with hp | hp
        · exact hm.1 p hp
        · simpa [hp] using fun hveq => (hv (k₁, v₁) (by simp)) hveq
      · exact ih (fun p hp => hv p (List.mem_cons_of_mem _ hp)) hm.2

theorem nth_lt_length {α : Type} :
    ∀ {l : List α} {n : Nat} {a : α}, nth l n = some a → n < l.length := by
  intro l
  induction l with
  | nil => intro n a h; simp [nth] at h
  | cons x xs ih =>
    intro n a h
    cases n with
    | zero => simp
    | succ n => exact Nat.succ_lt_succ (ih (by simpa [nth] using h))

theorem nth_mem {α : Type} :
    ∀ {l : List α} {n : Nat} {a : α}, nth l n = some a → a ∈ l := by
  intro l
  induction l with
  | nil => intro n a h; simp [nth] at h
  | cons x xs ih =>
    intro n a h
    cases n with
    | zero => simp only [nth, Option.some.injEq] at h; simp [h]
    | succ n => exact List.mem_cons_of_mem _ (ih (by simpa [nth] using h))

theorem nth_append_left {α : Type} :
    ∀ (l l' : List α) (n : Nat), n < l.length → nth (l ++ l') n = nth l n := by
  intro l
  induction l with
  | nil => intro l' n h; simp at h
  | cons x xs ih =>
    intro l' n h
    cases n with
    | zero => simp [nth]
    | succ n => simpa [nth] using ih l' n (by simpa using h)

theorem nth_append_length {α : Type} :
    ∀ (l : List α) (a : α), nth (l ++ [a]) l.length = some a := by
  intro l a
  induction l with
  | nil => simp [nth]
  | cons x xs ih => simpa [nth] using ih

theorem length_setNth {α : Type} :
    ∀ (l : List α) (n : Nat) (b : α), (setNth l n b).length = l.length := by
  intro l
  induction l with
  | nil => intro n b; simp [setNth]
  | cons x xs ih =>
    intro n b
    cases n with
    | zero => simp [setNth]
    | succ n => simpa [setNth] using ih n b

theorem nth_setNth_self {α : Type} :
    ∀ {l : List α} {n : Nat} {a : α} (b : α), nth l n = some a →
      nth (setNth l n b) n = some b := by
  intro l
  induction l with
  | nil => intro n a b h; simp [nth] at h
  | cons x xs ih =>
    intro n a b h
    cases n with
    | zero => simp [setNth, nth]
    | succ n => simpa [setNth, nth] using ih b (by simpa [nth] using h)

theorem nth_setNth_ne {α : Type} :
    ∀ (l : List α) {n m : Nat} (b : α), n ≠ m → nth (setNth l n b) m = nth l m := by
  intro l
  induction l with
  | nil => intro n m b _; simp [setNth]
  | cons x xs ih =>
    intro n m b h
    cases n with
    | zero =>
      cases m with
      | zero => exact absurd rfl h
      | succ m => simp [setNth, nth]
    | succ n =>
      cases m with
      | zero => simp [setNth, nth]
      | succ m => simpa [setNth, nth] using ih b (fun he => h (by simp [he]))

theorem mem_setAdd {s : List String} {x y : String} (h : y ∈ setAdd s x) :
    y ∈ s ∨ y = x := by
  unfold setAdd at h
  by_cases hx : x ∈ s
  · exact Or.inl (by simpa [hx] using h)
  · simpa [hx] using h

theorem length_lastN {α : Type} (n : Nat) (l : List α) :
    (lastN n l).length = l.length - (l.length - n) := by
  simp [lastN]

theorem reportMapping_length_le (m : List (String × String)) (url aid : String) :
    (reportMapping m url aid).length ≤ 1000 := by
  unfold reportMapping
  by_cases h : (mapSet m url aid).length > 1000
  · rw [if_pos h, length_lastN]
    omega
  · rw [if_neg h]
    omega

theorem mapLookup_reportMapping_self (m : List (String × String))
    (url aid : String) (hm : m.length ≤ 1000) :
    mapLookup (reportMapping m url aid) url = some aid := by
  unfold reportMapping
  cases hc : mapLookup m url with
  | some v =>
    have hlen : (mapSet m url aid).length = m.length :=
      mapSet_length_of_some aid (by simp [hc])
    rw [if_neg (by omega), mapLookup_mapSet_self]
  | none =>
    rw [mapSet_of_none aid hc]
    have hL : (m ++ [(url, aid)]).length = m.length + 1 := by simp
    by_cases h : (m ++ [(url, aid)]).length > 1000
    · rw [if_pos h]
      have hlen : m.length = 1000 := by omega
      unfold lastN
      rw [List.drop_append_of_le_length (by omega)]
      rw [mapLookup_append _ _ _ (mapLookup_eq_none
        (fun p hp => mapLookup_ne_of_none hc p (List.drop_subset _ _ hp)))]
      simp [mapLookup]
    · rw [if_neg h]
      rw [mapLookup_append _ _ _ hc]
      simp [mapLookup]

/-! Lemmas about the generated id formats. -/

theorem http_prefix_ne_action_prefix (s t : String) :
    "http_" ++ s ≠ "action_" ++ t := by
  intro h
  have h2 : (some 'h' : Option Char) = some 'a' :=
    congrArg (fun x : String => x.data.head?) h
  simp at h2

theorem failed_prefix_ne_action_prefix (s t : String) :
    "failed_" ++ s ≠ "action_" ++ t := by
  intro h
  have h2 : (some 'f' : Option Char) = some 'a' :=
    congrArg (fun x : String => x.data.head?) h
  simp at h2

theorem mkHttpId_ne_mkActionId (t r t' r' : Nat) :
    mkHttpId t r ≠ mkActionId t' r' :=
  http_prefix_ne_action_prefix _ _

theorem mkFailedId_ne_mkActionId (t r t' r' : Nat) :
    mkFailedId t r ≠ mkActionId t' r' :=
  failed_prefix_ne_action_prefix _ _

/-! Field-preservation lemmas for the aggregator operations and the step
function. -/

theorem addAction_requests (ag : Aggregator) (pid : String) (a : Action)
    (ty : PartType) : (addAction ag pid a ty).scanData.requests =
      ag.scanData.requests := rfl

theorem addAction_actionIdSet (ag : Aggregator) (pid : String) (a : Action)
    (ty : PartType) : (addAction ag pid a ty).actionIdSet =
      setAdd ag.actionIdSet a.actionId := rfl

theorem addResourcePart_requests (ag : Aggregator) (pid : String)
    (ty : PartType) (url : String) :
    (addResourcePart ag pid ty url).scanData.requests = ag.scanData.requests := by
  unfold addResourcePart
  split <;> rfl

theorem addResourcePart_actionIdSet (ag : Aggregator) (pid : String)
    (ty : PartType) (url : String) :
    (addResourcePart ag pid ty url).actionIdSet = ag.actionIdSet := by
  unfold addResourcePart
  split <;> rfl

theorem createResourcePart_requests (ag : Aggregator)
    (pc : List (PartType × Nat)) (url src : String) :
    (createResourcePart ag pc url src).1.scanData.requests =
      ag.scanData.requests := by
  unfold createResourcePart
  by_cases h : resourceTypeMap src = PartType.html
  · simp [h]
  · simp [h, addResourcePart_requests]

theorem createResourcePart_actionIdSet (ag : Aggregator)
    (pc : List (PartType × Nat)) (url src : String) :
    (createResourcePart ag pc url src).1.actionIdSet = ag.actionIdSet := by
  unfold createResourcePart
  by_cases h : resourceTypeMap src = PartType.html
  · simp [h]
  · simp [h, addResourcePart_actionIdSet]

theorem addRequest_requests (ag : Aggregator) (r : Request) :
    (addRequest ag r).scanData.requests = ag.scanData.requests ++ [r] := rfl

theorem addRequest_actionIdSet (ag : Aggregator) (r : Request) :
    (addRequest ag r).actionIdSet = ag.actionIdSet := rfl

theorem writeStatusLogged_pending (s : SysState) (idx : Nat) (v : Int) :
    (writeStatusLogged s idx v).pending = s.pending := by
  unfold writeStatusLogged
  split <;> rfl

theorem writeStatusLogged_actionIdSet (s : SysState) (idx : Nat) (v : Int) :
    (writeStatusLogged s idx v).agg.actionIdSet = s.agg.actionIdSet := by
  unfold writeStatusLogged
  split <;> rfl

theorem writeStatusLogged_mappings (s : SysState) (idx : Nat) (v : Int) :
    (writeStatusLogged s idx v).mappings = s.mappings := by
  unfold writeStatusLogged
  split <;> rfl

theorem writeStatusLogged_stack (s : SysState) (idx : Nat) (v : Int) :
    (writeStatusLogged s idx v).stack = s.stack := by
  unfold writeStatusLogged
  split <;> rfl

theorem writeStatusLogged_current (s : SysState) (idx : Nat) (v : Int) :
    (writeStatusLogged s idx v).current = s.current := by
  unfold writeStatusLogged
  split <;> rfl

theorem writeStatusLogged_of_nth {s : SysState} {idx : Nat} {rec : Request}
    (h : nth s.agg.scanData.requests idx = some rec) (v : Int) :
    (writeStatusLogged s idx v).agg.scanData.requests =
      setNth s.agg.scanData.requests idx { rec with status := v } ∧
    (writeStatusLogged s idx v).writeLog =
      s.writeLog ++ [{ idx := idx, oldStatus := rec.status, newStatus := v }] := by
  unfold writeStatusLogged
  rw [h]
  exact ⟨rfl, rfl⟩

/-! Frame predicates over events, and trace-level preservation lemmas. -/

/-- Events that leave a current causal context `aid` in place: anything
except a new cause firing or the firing of `aid`'s own grace timer. -/
def keepsContext (aid : String) : Event → Bool
  | Event.causeFired _ _ _ _ => false
  | Event.popTimer b => decide (b ≠ aid)
  | _ => true

/-- Events that do not modify the url-to-action mapping store: anything
except an outbound call or a cleanup sweep. -/
def keepsMappings : Event → Bool
  | Event.outbound _ => false
  | Event.sweep _ => false
  | _ => true

/-- Events that leave the pending entry for transport id `rid`, and the
request record it points to, untouched: causes, pops, outbound calls, and
host requests for other transport ids. -/
def keepsPendingOf (rid : String) : Event → Bool
  | Event.causeFired _ _ _ _ => true
  | Event.popTimer _ => true
  | Event.outbound _ => true
  | Event.hostRequest rid' _ _ _ _ _ => decide (rid' ≠ rid)
  | _ => false

theorem step_mappings_len (s : SysState) (e : Event)
    (h : s.mappings.length ≤ 1000) : (step s e).mappings.length ≤ 1000 := by
  cases e with
  | causeFired t r ty data => simpa [step] using h
  | popTimer aid =>
    simp only [step]
    split <;> simpa using h
  | outbound url =>
    simp only [step]
    cases hc : s.current with
    | none => simpa using h
    | some a => simpa using reportMapping_length_le s.mappings url a
  | hostRequest rid url src method t r => simpa [step] using h
  | hostResponse rid url code =>
    simp only [step]
    cases hc : mapLookup s.pending rid with
    | some idx => simpa [writeStatusLogged_mappings] using h
    | none =>
      cases hf : findIdxP (fun r => r.url = url && r.status = -1)
          s.agg.scanData.requests with
      | some idx => simpa [writeStatusLogged_mappings] using h
      | none => simpa using h
  | hostRequestFailed rid url src method t r =>
    simp only [step]
    cases hc : mapLookup s.pending rid with
    | some idx => simpa [writeStatusLogged_mappings] using h
    | none => simpa using h
  | sweep t =>
    simp only [step]
    by_cases hm : s.mappings.length > 50
    · rw [if_pos hm]
      simp only [length_lastN]
      omega
    · rw [if_neg hm]
      simpa using h

theorem runTrace_mappings_len (tr : List Event) (s : SysState)
    (h : s.mappings.length ≤ 1000) : (runTrace s tr).mappings.length ≤ 1000 := by
  induction tr generalizing s with
  | nil => simpa [runTrace] using h
  | cons e tr ih =>
    exact ih (step s e) (step_mappings_len s e h)

theorem step_context_preserved (s : SysState) (e : Event) (aid : String)
    (hk : keepsContext aid e = true) (hc : s.current = some aid)
    (hs : s.stack.getLast? = some aid) :
    (step s e).current = some aid ∧ (step s e).stack.getLast? = some aid := by
  cases e with
  | causeFired t r ty data => simp [keepsContext] at hk
  | popTimer b =>
    have hb : b ≠ aid := by simpa [keepsContext] using hk
    simp only [step]
    rw [if_neg (by rw [hs]; simpa using fun h => hb h.symm)]
    exact ⟨hc, hs⟩
  | outbound url =>
    simp only [step]
    cases hcur : s.current <;> simp_all
  | hostRequest rid url src method t r => exact ⟨hc, hs⟩
  | hostResponse rid url code =>
    simp only [step]
    cases h1 : mapLookup s.pending rid with
    | some idx =>
      simpa [writeStatusLogged_stack, writeStatusLogged_current] using ⟨hc, hs⟩
    | none =>
      cases h2 : findIdxP (fun r => r.url = url && r.status = -1)
          s.agg.scanData.requests with
      | some idx =>
        simpa [writeStatusLogged_stack, writeStatusLogged_current] using ⟨hc, hs⟩
      | none => exact ⟨hc, hs⟩
  | hostRequestFailed rid url src method t r =>
    simp only [step]
    cases h1 : mapLookup s.pending rid with
    | some idx =>
      simpa [writeStatusLogged_stack, writeStatusLogged_current] using ⟨hc, hs⟩
    | none => exact ⟨hc, hs⟩
  | sweep t => exact ⟨hc, hs⟩

theorem runTrace_context_preserved (tr : List Event) (s : SysState)
    (aid : String) (hk : tr.all (keepsContext aid) = true)
    (hc : s.current = some aid) (hs : s.stack.getLast? = some aid) :
    (runTrace s tr).current = some aid ∧
      (runTrace s tr).stack.getLast? = some aid := by
  induction tr generalizing s with
  | nil => exact ⟨hc, hs⟩
  | cons e tr ih =>
    rw [List.all_cons, Bool.and_eq_true] at hk
    have := step_context_preserved s e aid hk.1 hc hs
    exact ih (step s e) hk.2 this.1 this.2

theorem step_mappings_preserved (s : SysState) (e : Event)
    (hk : keepsMappings e = true) : (step s e).mappings = s.mappings := by
  cases e with
  | causeFired t r ty data => rfl
  | popTimer b =>
    simp only [step]
    split <;> rfl
  | outbound url => simp [keepsMappings] at hk
  | hostRequest rid url src method t r => rfl
  | hostResponse rid url code =>
    simp only [step]
    cases h1 : mapLookup s.pending rid with
    | some idx => simp [writeStatusLogged_mappings]
    | none =>
      cases h2 : findIdxP (fun r => r.url = url && r.status = -1)
          s.agg.scanData.requests with
      | some idx => simp [writeStatusLogged_mappings]
      | none => rfl
  | hostRequestFailed rid url src method t r =>
    simp only [step]
    cases h1 : mapLookup s.pending rid with
    | some idx => simp [writeStatusLogged_mappings]
    | none => rfl
  | sweep t => simp [keepsMappings] at hk

theorem runTrace_mappings_preserved (tr : List Event) (s : SysState)
    (hk : tr.all keepsMappings = true) : (runTrace s tr).mappings = s.mappings := by
  induction tr generalizing s with
  | nil => rfl
  | cons e tr ih =>
    rw [List.all_cons, Bool.and_eq_true] at hk
    rw [runTrace, List.foldl_cons, ← runTrace, ih (step s e) hk.2,
      step_mappings_preserved s e hk.1]

theorem step_pendingOf_preserved (s : SysState) (e : Event) (rid : String)
    (n : Nat) (rec : Request) (hk : keepsPendingOf rid e = true)
    (hp : mapLookup s.pending rid = some n)
    (hr : nth s.agg.scanData.requests n = some rec) :
    mapLookup (step s e).pending rid = some n ∧
      nth (step s e).agg.scanData.requests n = some rec := by
  cases e with
  | causeFired t r ty data =>
    exact ⟨hp, by simpa [step, addAction_requests] using hr⟩
  | popTimer b =>
    simp only [step]
    split <;> exact ⟨hp, hr⟩
  | outbound url =>
    simp only [step]
    cases hc : s.current <;> exact ⟨hp, hr⟩
  | hostRequest rid' url src method t r =>
    have hne : rid' ≠ rid := by simpa [keepsPendingOf] using hk
    constructor
    · simpa [step] using (mapLookup_mapSet_ne s.pending rid' rid _ hne).trans hp
    · show nth (addRequest _ _).scanData.requests n = some rec
      rw [addRequest_requests, createResourcePart_requests,
        nth_append_left _ _ n (nth_lt_length hr)]
      exact hr
  | hostResponse rid' url code => simp [keepsPendingOf] at hk
  | hostRequestFailed rid' url src method t r => simp [keepsPendingOf] at hk
  | sweep t => simp [keepsPendingOf] at hk

theorem runTrace_pendingOf_preserved (tr : List Event) (s : SysState)
    (rid : String) (n : Nat) (rec : Request)
    (hk : tr.all (keepsPendingOf rid) = true)
    (hp : mapLookup s.pending rid = some n)
    (hr : nth s.agg.scanData.requests n = some rec) :
    mapLookup (runTrace s tr).pending rid = some n ∧
      nth (runTrace s tr).agg.scanData.requests n = some rec := by
  induction tr generalizing s with
  | nil => exact ⟨hp, hr⟩
  | cons e tr ih =>
    rw [List.all_cons, Bool.and_eq_true] at hk
    have := step_pendingOf_preserved s e rid n rec hk.1 hp hr
    exact ih (step s e) hk.2 this.1 this.2

/-- Well-formedness of the aggregator's action-id set: every recorded
action id was generated by the cause-time id generator
(`action_${Date.now()}_${random}`). -/
def actionIdsWF (s : SysState) : Prop :=
  ∀ id ∈ s.agg.actionIdSet, ∃ t r, id = mkActionId t r

theorem step_actionIdsWF (s : SysState) (e : Event) (h : actionIdsWF s) :
    actionIdsWF (step s e) := by
  cases e with
  | causeFired t r ty data =>
    intro id hid
    have : id ∈ s.agg.actionIdSet ∨ id = mkActionId t r := by
      have h2 : (step s (Event.causeFired t r ty data)).agg.actionIdSet =
          setAdd s.agg.actionIdSet (mkActionId t r) := rfl
      exact mem_setAdd (h2 ▸ hid)
    rcases this with h1 | h1
    · exact h id h1
    · exact ⟨t, r, h1⟩
  | popTimer b =>
    intro id hid
    refine h id ?_
    revert hid
    simp only [step]
    split <;> exact fun hid => hid
  | outbound url =>
    intro id hid
    refine h id ?_
    revert hid
    simp only [step]
    cases hc : s.current <;> exact fun hid => hid
  | hostRequest rid url src method t r =>
    intro id hid
    refine h id ?_
    have h2 : (step s (Event.hostRequest rid url src method t r)).agg.actionIdSet
        = s.agg.actionIdSet := by
      show (addRequest _ _).actionIdSet = _
      rw [addRequest_actionIdSet, createResourcePart_actionIdSet]
    exact h2 ▸ hid
  | hostResponse rid url code =>
    intro id hid
    refine h id ?_
    revert hid
    simp only [step]
    cases h1 : mapLookup s.pending rid with
    | some idx => simp [writeStatusLogged_actionIdSet]
    | none =>
      cases h2 : findIdxP (fun r => r.url = url && r.status = -1)
          s.agg.scanData.requests with
      | some idx => simp [writeStatusLogged_actionIdSet]
      | none => exact fun hid => hid
  | hostRequestFailed rid url src method t r =>
    intro id hid
    refine h id ?_
    revert hid
    simp only [step]
    cases h1 : mapLookup s.pending rid with
    | some idx => simp [writeStatusLogged_actionIdSet]
    | none => simp [addRequest_actionIdSet]
  | sweep t => exact h

theorem runTrace_actionIdsWF (tr : List Event) (s : SysState)
    (h : actionIdsWF s) : actionIdsWF (runTrace s tr) := by
  induction tr generalizing s with
  | nil => exact h
  | cons e tr ih => exact ih (step s e) (step_actionIdsWF s e h)

theorem initState_actionIdsWF : actionIdsWF initState := by
  intro id hid
  simp [initState, initAggregator] at hid

/-! Status-write discipline (claim C4). -/

/-- Head condition of a disciplined trace: every resolution event
(response or failure) arrives while its transport id is still tracked in
`pendingRequests` (so the best-effort url fallback is never needed), and
no cleanup sweep intervenes. -/
def okC4 (s : SysState) : Event → Bool
  | Event.hostResponse rid _ _ => (mapLookup s.pending rid).isSome
  | Event.hostRequestFailed rid _ _ _ _ _ => (mapLookup s.pending rid).isSome
  | Event.sweep _ => false
  | _ => true

/-- A trace is disciplined from a state when every event satisfies `okC4`
in the state it executes in. -/
def disciplined : SysState → List Event → Bool
  | _, [] => true
  | s, e :: tr => okC4 s e && disciplined (step s e) tr

/-- Inductive invariant for the status-write discipline: every pending
entry points at a distinct in-range record that is still unresolved
(`-1`), and the write log records only transminations from `-1` to a
terminal value, at most one per record position. -/
structure C4Inv (s : SysState) : Prop where
  pendingOk : ∀ p ∈ s.pending,
    ∃ rec, nth s.agg.scanData.requests p.2 = some rec ∧ rec.status = -1
  pendingLt : ∀ p ∈ s.pending, p.2 < s.agg.scanData.requests.length
  pendingDistinct : s.pending.Pairwise (fun a b => a.2 ≠ b.2)
  logOk : ∀ w ∈ s.writeLog,
    w.oldStatus = -1 ∧ (0 ≤ w.newStatus ∨ w.newStatus = -999)
  logDistinct : s.writeLog.Pairwise (fun a b => a.idx ≠ b.idx)
  logLt : ∀ w ∈ s.writeLog, w.idx < s.agg.scanData.requests.length
  logTerminal : ∀ w ∈ s.writeLog, ∀ rec,
    nth s.agg.scanData.requests w.idx = some rec → rec.status ≠ -1

theorem C4Inv_congr {s s' : SysState} (h : C4Inv s)
    (hreq : s'.agg.scanData.requests = s.agg.scanData.requests)
    (hpend : s'.pending = s.pending) (hlog : s'.writeLog = s.writeLog) :
    C4Inv s' := by
  cases h with
  | mk p1 p2 p3 p4 p5 p6 p7 =>
    exact ⟨by rw [hpend, hreq]; exact p1, by rw [hpend, hreq]; exact p2,
      by rw [hpend]; exact p3, by rw [hlog]; exact p4, by rw [hlog]; exact p5,
      by rw [hlog, hreq]; exact p6, by rw [hlog, hreq]; exact p7⟩

theorem C4Inv_resolve (s : SysState) (rid : String) (idx : Nat) (v : Int)
    (hv : 0 ≤ v ∨ v = -999) (hl : mapLookup s.pending rid = some idx)
    (h : C4Inv s) :
    C4Inv { writeStatusLogged s idx v with
            pending := mapDelete (writeStatusLogged s idx v).pending rid } := by
  have hvne : v ≠ -1 := by rcases hv with hv | hv <;> omega
  obtain ⟨rec, hrec, hstat⟩ := h.pendingOk (rid, idx) (mapLookup_mem hl)
  obtain ⟨hreqs, hlog⟩ := writeStatusLogged_of_nth hrec v
  have hvals : ∀ p ∈ mapDelete s.pending rid, p.2 ≠ idx :=
    mapDelete_snd_ne hl h.pendingDistinct
  have hidxlt : idx < s.agg.scanData.requests.length := nth_lt_length hrec
  have hlogne : ∀ w ∈ s.writeLog, w.idx ≠ idx := by
    intro w hw heq
    exact h.logTerminal w hw rec (heq ▸ hrec) hstat
  have hpend2 : ({ writeStatusLogged s idx v with
      pending := mapDelete (writeStatusLogged s idx v).pending rid } : SysState).pending
      = mapDelete s.pending rid := by
    rw [writeStatusLogged_pending]
  constructor
  · intro p hp
    rw [hpend2] at hp
    obtain ⟨rec', hrec', hstat'⟩ :=
      h.pendingOk p ((mapDelete_sublist s.pending rid).subset hp)
    refine ⟨rec', ?_, hstat'⟩
    show nth (writeStatusLogged s idx v).agg.scanData.requests p.2 = some rec'
    rw [hreqs, nth_setNth_ne _ _ (fun he => hvals p hp he.symm)]
    exact hrec'
  · intro p hp
    rw [hpend2] at hp
    show p.2 < (writeStatusLogged s idx v).agg.scanData.requests.length
    rw [hreqs, length_setNth]
    exact h.pendingLt p ((mapDelete_sublist s.pending rid).subset hp)
  · rw [hpend2]
    exact h.pendingDistinct.sublist (mapDelete_sublist s.pending rid)
  · intro w hw
    show w.oldStatus = -1 ∧ _
    rw [show ({ writeStatusLogged s idx v with
      pending := mapDelete (writeStatusLogged s idx v).pending rid } : SysState).writeLog
      = (writeStatusLogged s idx v).writeLog from rfl, hlog] at hw
    rcases List.mem_append.mp hw with hw | hw
    · exact h.logOk w hw
    · simp only [List.mem_singleton] at hw
      subst hw
      exact ⟨hstat, hv⟩
  · rw [show ({ writeStatusLogged s idx v with
      pending := mapDelete (writeStatusLogged s idx v).pending rid } : SysState).writeLog
      = (writeStatusLogged s idx v).writeLog from rfl, hlog]
    rw [List.pairwise_append]
    refine ⟨h.logDistinct, List.pairwise_singleton _ _, ?_⟩
    intro a ha b hb
    simp only [List.mem_singleton] at hb
    subst hb
    exact hlogne a ha
  · intro w hw
    rw [show ({ writeStatusLogged s idx v with
      pending := mapDelete (writeStatusLogged s idx v).pending rid } : SysState).writeLog
      = (writeStatusLogged s idx v).writeLog from rfl, hlog] at hw
    show w.idx < (writeStatusLogged s idx v).agg.scanData.requests.length
    rw [hreqs, length_setNth]
    rcases List.mem_append.mp hw with hw | hw
    · exact h.logLt w hw
    · simp only [List.mem_singleton] at hw
      subst hw
      exact hidxlt
  · intro w hw rec'' hrec''
    rw [show ({ writeStatusLogged s idx v with
      pending := mapDelete (writeStatusLogged s idx v).pending rid } : SysState).writeLog
      = (writeStatusLogged s idx v).writeLog from rfl, hlog] at hw
    rw [show ({ writeStatusLogged s idx v with
      pending := mapDelete (writeStatusLogged s idx v).pending rid } : SysState).agg
      = (writeStatusLogged s idx v).agg from rfl, hreqs] at hrec''
    rcases List.mem_append.mp hw with hw | hw
    · rw [nth_setNth_ne _ _ (fun he => hlogne w hw he.symm)] at hrec''
      exact h.logTerminal w hw rec'' hrec''
    · simp only [List.mem_singleton] at hw
      subst hw
      rw [nth_setNth_self _ hrec] at hrec''
      cases hrec''
      simpa using hvne

theorem C4Inv_appendRequest (s : SysState) (s' : SysState) (rid : String)
    (rec : Request) (hst : rec.status = -1)
    (hreq : s'.agg.scanData.requests = s.agg.scanData.requests ++ [rec])
    (hpend : s'.pending = mapSet s.pending rid s.agg.scanData.requests.length)
    (hlog : s'.writeLog = s.writeLog) (h : C4Inv s) : C4Inv s' := by
  have hn : ∀ p ∈ s.pending, p.2 ≠ s.agg.scanData.requests.length :=
    fun p hp => Nat.ne_of_lt (h.pendingLt p hp)
  have hlen : s'.agg.scanData.requests.length = s.agg.scanData.requests.length + 1 := by
    rw [hreq]
    simp
  constructor
  · intro p hp
    rw [hpend] at hp
    rcases mem_mapSet hp with hp | hp
    · obtain ⟨rec', hrec', hst'⟩ := h.pendingOk p hp
      refine ⟨rec', ?_, hst'⟩
      rw [hreq, nth_append_left _ _ _ (nth_lt_length hrec')]
      exact hrec'
    · subst hp
      exact ⟨rec, by rw [hreq]; exact nth_append_length _ _, hst⟩
  · intro p hp
    rw [hpend] at hp
    rw [hlen]
    rcases mem_mapSet hp with hp | hp
    · exact Nat.lt_succ_of_lt (h.pendingLt p hp)
    · subst hp
      exact Nat.lt_succ_self _
  · rw [hpend]
    exact pairwise_mapSet rid hn h.pendingDistinct
  · rw [hlog]
    exact h.logOk
  · rw [hlog]
    exact h.logDistinct
  · intro w hw
    rw [hlog] at hw
    rw [hlen]
    exact Nat.lt_succ_of_lt (h.logLt w hw)
  · intro w hw rec' hrec'
    rw [hlog] at hw
    rw [hreq, nth_append_left _ _ _ (h.logLt w hw)] at hrec'
    exact h.logTerminal w hw rec' hrec'

theorem step_C4Inv (s : SysState) (e : Event) (hok : okC4 s e = true)
    (h : C4Inv s) : C4Inv (step s e) := by
  cases e with
  | causeFired t r ty data => exact C4Inv_congr h rfl rfl rfl
  | popTimer b =>
    simp only [step]
    split
    · exact C4Inv_congr h rfl rfl rfl
    · exact h
  | outbound url =>
    simp only [step]
    cases hc : s.current with
    | none => exact h
    | some a => exact C4Inv_congr h rfl rfl rfl
  | hostRequest rid url src method t r =>
    refine C4Inv_appendRequest s _ rid
      { actionId := match mapLookup s.mappings url with
          | some a => a
          | none => mkHttpId t r,
        url := url, requestSource := src, method := method, status := -1 }
      rfl ?_ ?_ rfl h
    · show (addRequest _ _).scanData.requests = _
      rw [addRequest_requests, createResourcePart_requests]
    · show mapSet s.pending rid
        (createResourcePart s.agg s.partCounter url src).1.scanData.requests.length = _
      rw [createResourcePart_requests]
  | hostResponse rid url code =>
    simp only [okC4, Option.isSome_iff_exists] at hok
    obtain ⟨idx, hl⟩ := hok
    simp only [step, hl]
    exact C4Inv_resolve s rid idx (Int.ofNat code)
      (Or.inl (Int.ofNat_nonneg code)) hl h
  | hostRequestFailed rid url src method t r =>
    simp only [okC4, Option.isSome_iff_exists] at hok
    obtain ⟨idx, hl⟩ := hok
    simp only [step, hl]
    exact C4Inv_resolve s rid idx (-999) (Or.inr rfl) hl h
  | sweep t => simp [okC4] at hok

theorem runTrace_C4Inv (tr : List Event) (s : SysState) (h : C4Inv s)
    (hd : disciplined s tr = true) : C4Inv (runTrace s tr) := by
  induction tr generalizing s with
  | nil => exact h
  | cons e tr ih =>
    rw [disciplined, Bool.and_eq_true] at hd
    exact ih (step s e) (step_C4Inv s e hd.1 h) hd.2

theorem initState_C4Inv : C4Inv initState := by
  constructor <;> simp [initState, initAggregator]

/-! Claim theorems. -/

theorem rate_bounds_aux (a b : Nat) (h : a ≤ b) (hb : 0 < b) :
    0 ≤ (a : Rat) / (b : Rat) * 100 ∧ (a : Rat) / (b : Rat) * 100 ≤ 100 := by
  have hb' : (0 : Rat) < (b : Rat) := by exact_mod_cast hb
  constructor
  · exact mul_nonneg (div_nonneg (Nat.cast_nonneg a) (Nat.cast_nonneg b))
      (by norm_num)
  · have h1 : (a : Rat) / (b : Rat) ≤ 1 :=
      (div_le_one hb').mpr (by exact_mod_cast h)
    calc (a : Rat) / (b : Rat) * 100 ≤ 1 * 100 :=
          mul_le_mul_of_nonneg_right h1 (by norm_num)
      _ = 100 := one_mul _

/-- Claim C2 counterexample: on the empty ledger the source's
`getLinkageStats` computes `0 / 0 * 100`, which in JavaScript is `NaN`
(modelled as `none`), not `0`; the claim's assertions `linkageRate = 0`
and `0 ≤ linkageRate ≤ 100` both fail there. -/
theorem claim2_counterexample :
    getLinkageStatsRate initAggregator = none ∧
      getLinkageStatsRate initAggregator ≠ some 0 := by
  constructor
  · decide
  · decide

/-- Claim C2, amended: whenever the ledger holds at least one request, the
`linkageRate` of `getLinkageStats` is a finite value in `[0, 100]`; on an
empty ledger it is `NaN` rather than `0`, while the linkage rate computed
by `generateLinkageReport` is explicitly guarded, equals `0` on an empty
request list, and always lies in `[0, 100]`. -/
theorem claim2_amended_rate_bounds :
    (∀ ag : Aggregator, 0 < ag.scanData.requests.length →
      ∃ q : Rat, getLinkageStatsRate ag = some q ∧ 0 ≤ q ∧ q ≤ 100) ∧
    (∀ (parts : List Part) (requests : List Request),
      0 ≤ reportLinkageRate parts requests ∧
        reportLinkageRate parts requests ≤ 100) ∧
    (∀ parts : List Part, reportLinkageRate parts [] = 0) := by
  refine ⟨?_, ?_, ?_⟩
  · intro ag hlen
    have hne : ((ag.scanData.requests.length : Rat)) ≠ 0 :=
      Nat.cast_ne_zero.mpr (Nat.pos_iff_ne_zero.mp hlen)
    have hle : (validateLinkage ag).linkedRequests ≤ ag.scanData.requests.length :=
      List.length_filter_le _ _
    obtain ⟨h0, h100⟩ := rate_bounds_aux (validateLinkage ag).linkedRequests
      ag.scanData.requests.length hle hlen
    refine ⟨((validateLinkage ag).linkedRequests : Rat) /
      (ag.scanData.requests.length : Rat) * 100, ?_, h0, h100⟩
    unfold getLinkageStatsRate jsDiv
    rw [if_neg hne]
    rfl
  · intro parts requests
    unfold reportLinkageRate
    by_cases h : requests.length > 0
    · rw [if_pos h]
      exact rate_bounds_aux _ _ (List.length_filter_le _ _) h
    · rw [if_neg h]
      norm_num
  · intro parts
    rfl

/-- Claim C2 witness: a ledger with one request has a finite rate within
bounds. -/
theorem claim2_witness :
    0 < (addRequest initAggregator
      { actionId := "http_1_1", url := "u", requestSource := "fetch",
        method := "GET", status := -1 }).scanData.requests.length ∧
    ∃ q : Rat, getLinkageStatsRate (addRequest initAggregator
      { actionId := "http_1_1", url := "u", requestSource := "fetch",
        method := "GET", status := -1 }) = some q ∧ 0 ≤ q ∧ q ≤ 100 :=
  ⟨by decide, claim2_amended_rate_bounds.1 _ (by decide)⟩

/-- Claim C3: in both wrapper styles, when a cause is current (fetch) or
was captured at `open` time (XHR), the mapping report occurs strictly
before the call is handed to the underlying transport: the effect trace
splits around the dispatch with the report in the prefix and no dispatch
anywhere before it. -/
theorem claim3_report_before_dispatch :
    (∀ (a : String) (input : FetchInput),
      ∃ pre post, fetchWrapperTrace (some a) input =
        pre ++ NetEffect.dispatch (extractFetchUrl input) :: post ∧
        NetEffect.report (extractFetchUrl input) a ∈ pre ∧
        ∀ u, NetEffect.dispatch u ∉ pre) ∧
    (∀ (a url : String),
      ∃ pre post, xhrSendTrace (some a) url =
        pre ++ NetEffect.dispatch url :: post ∧
        NetEffect.report url a ∈ pre ∧
        ∀ u, NetEffect.dispatch u ∉ pre) := by
  constructor
  · intro a input
    refine ⟨[NetEffect.report (extractFetchUrl input) a],
      [NetEffect.correlate (extractFetchUrl input) a], ?_, ?_, ?_⟩
    · simp [fetchWrapperTrace]
    · simp
    · simp
  · intro a url
    refine ⟨[NetEffect.report url a, NetEffect.correlate url a], [], ?_, ?_, ?_⟩
    · simp [xhrSendTrace]
    · simp
    · simp

/-- Claim C3 witness: concrete instantiation on a string-typed fetch input
and an XHR send. -/
theorem claim3_witness :
    (∃ pre post, fetchWrapperTrace (some "action_1_2") (FetchInput.str "https://api.x/data") =
      pre ++ NetEffect.dispatch (extractFetchUrl (FetchInput.str "https://api.x/data")) :: post ∧
      NetEffect.report (extractFetchUrl (FetchInput.str "https://api.x/data")) "action_1_2" ∈ pre ∧
      ∀ u, NetEffect.dispatch u ∉ pre) ∧
    (∃ pre post, xhrSendTrace (some "action_1_2") "https://api.x/send" =
      pre ++ NetEffect.dispatch "https://api.x/send" :: post ∧
      NetEffect.report "https://api.x/send" "action_1_2" ∈ pre ∧
      ∀ u, NetEffect.dispatch u ∉ pre) :=
  ⟨claim3_report_before_dispatch.1 "action_1_2" (FetchInput.str "https://api.x/data"),
   claim3_report_before_dispatch.2 "action_1_2" "https://api.x/send"⟩

/-- Claim C6: when an insert into the mapping store triggers the eviction
(post-insert size above the 1000 capacity), the store is trimmed to
exactly the most recent 500 entries in map insertion order — a suffix of
the post-insert store — so its size (500) does not exceed the capacity.
JavaScript `Map.set` on an existing key updates in place, so "most
recent" is by first insertion of each key, not by latest update. -/
theorem claim6_eviction_bound (m : List (String × String)) (url aid : String)
    (h : (mapSet m url aid).length > 1000) :
    reportMapping m url aid = lastN 500 (mapSet m url aid) ∧
    (reportMapping m url aid).length = 500 ∧
    (reportMapping m url aid).length ≤ 1000 ∧
    mapSet m url aid =
      List.take ((mapSet m url aid).length - 500) (mapSet m url aid) ++
        reportMapping m url aid := by
  have heq : reportMapping m url aid = lastN 500 (mapSet m url aid) := by
    unfold reportMapping
    rw [if_pos h]
  refine ⟨heq, ?_, ?_, ?_⟩
  · rw [heq, length_lastN]
    omega
  · rw [heq, length_lastN]
    omega
  · rw [heq]
    unfold lastN
    exact (List.take_append_drop _ _).symm

/-- A mapping store of 1001 distinct entries, used to exercise the
insert-triggered eviction. -/
def bigMappingStore : List (String × String) :=
  (List.range 1001).map (fun i => (Nat.repr i, "a"))

set_option maxRecDepth 10000 in
/-- Claim C6 witness: inserting a 1002nd fresh key triggers the eviction
and the store shrinks to the most recent 500 entries. -/
theorem claim6_witness :
    (mapSet bigMappingStore "x" "v").length > 1000 ∧
    (reportMapping bigMappingStore "x" "v").length = 500 ∧
    (reportMapping bigMappingStore "x" "v").length ≤ 1000 :=
  ⟨by decide,
   (claim6_eviction_bound bigMappingStore "x" "v" (by decide)).2.1,
   (claim6_eviction_bound bigMappingStore "x" "v" (by decide)).2.2.1⟩

/-- Claim C7: the context-stack pop is identity-guarded.  Pushing cause A
then cause B and then letting A's grace timer fire leaves the stack
unchanged with B still the current context, and in general a pop removes
the top entry (recomputing the current context from the new top) only
when the top still equals the id the pop was scheduled for, doing nothing
otherwise. -/
theorem claim7_guarded_pop (s : SysState) (tA rA tB rB : Nat)
    (tyA dataA tyB dataB : String)
    (hne : mkActionId tA rA ≠ mkActionId tB rB) :
    ((step (step (step s (Event.causeFired tA rA tyA dataA))
        (Event.causeFired tB rB tyB dataB))
        (Event.popTimer (mkActionId tA rA))).stack =
      (step (step s (Event.causeFired tA rA tyA dataA))
        (Event.causeFired tB rB tyB dataB)).stack ∧
     (step (step (step s (Event.causeFired tA rA tyA dataA))
        (Event.causeFired tB rB tyB dataB))
        (Event.popTimer (mkActionId tA rA))).current =
      some (mkActionId tB rB)) ∧
    (∀ (st : SysState) (aid : String),
      (st.stack.getLast? ≠ some aid → step st (Event.popTimer aid) = st) ∧
      (st.stack.getLast? = some aid →
        (step st (Event.popTimer aid)).stack = st.stack.dropLast ∧
        (step st (Event.popTimer aid)).current = st.stack.dropLast.getLast?)) := by
  constructor
  · have hlast : (s.stack ++ [mkActionId tA rA] ++ [mkActionId tB rB]).getLast? =
        some (mkActionId tB rB) := List.getLast?_concat _
    have hcond : ¬((s.stack ++ [mkActionId tA rA] ++ [mkActionId tB rB]).getLast? =
        some (mkActionId tA rA)) := by
      rw [hlast]
      intro hcontra
      exact hne (Option.some.inj hcontra).symm
    constructor
    · simp only [step]
      rw [if_neg hcond]
    · simp only [step]
      rw [if_neg hcond]
  · intro st aid
    constructor
    · intro hne'
      simp only [step, if_neg hne']
    · intro heq
      constructor
      · simp only [step]
        rw [if_pos heq]
      · simp only [step]
        rw [if_pos heq]

/-- Claim C7 witness: concrete nested causes with distinct ids. -/
theorem claim7_witness :
    mkActionId 1 1 ≠ mkActionId 2 2 ∧
    ((step (step (step initState (Event.causeFired 1 1 "input.value" "id=a"))
        (Event.causeFired 2 2 "input.value" "id=b"))
        (Event.popTimer (mkActionId 1 1))).stack =
      (step (step initState (Event.causeFired 1 1 "input.value" "id=a"))
        (Event.causeFired 2 2 "input.value" "id=b")).stack ∧
     (step (step (step initState (Event.causeFired 1 1 "input.value" "id=a"))
        (Event.causeFired 2 2 "input.value" "id=b"))
        (Event.popTimer (mkActionId 1 1))).current =
      some (mkActionId 2 2)) :=
  ⟨by decide,
   (claim7_guarded_pop initState 1 1 2 2 "input.value" "id=a" "input.value" "id=b"
     (by decide)).1⟩

/-- Claim C8: resource-part registration is idempotent — a second
`addResourcePart` call with the same part id (with any type and url
arguments) leaves the whole aggregator, in particular the set of parts,
the existing part's type and its action list, exactly as after the first
call. -/
theorem claim8_idempotent_registration (ag : Aggregator) (pid : String)
    (ty ty' : PartType) (url url' : String) :
    addResourcePart (addResourcePart ag pid ty url) pid ty' url' =
      addResourcePart ag pid ty url := by
  by_cases h : ag.scanData.parts.any (fun p => decide (p.id = pid)) = true
  · have h1 : addResourcePart ag pid ty url = ag := by
      unfold addResourcePart
      rw [if_pos h]
    rw [h1]
    unfold addResourcePart
    rw [if_pos h]
  · have h1 : addResourcePart ag pid ty url =
        { ag with scanData := { ag.scanData with parts := ag.scanData.parts ++
          [{ id := pid, type := ty, actions := [] }] } } := by
      unfold addResourcePart
      rw [if_neg h]
    rw [h1]
    unfold addResourcePart
    rw [if_pos (by simp [List.any_append])]

/-- Claim C8 witness: concrete double registration. -/
theorem claim8_witness :
    addResourcePart (addResourcePart initAggregator "part_js_1" PartType.js "u")
        "part_js_1" PartType.css "u2" =
      addResourcePart initAggregator "part_js_1" PartType.js "u" :=
  claim8_idempotent_registration initAggregator "part_js_1" PartType.js
    PartType.css "u" "u2"

/-- Action list of the first part with the given id, `[]` when no such
part exists (models `parts.find(p => p.id === partId)` followed by reading
`actions`). -/
def partActions : List Part → String → List Action
  | [], _ => []
  | p :: ps, pid => if p.id = pid then p.actions else partActions ps pid

theorem partActions_of_none (parts : List Part) (pid : String)
    (h : parts.any (fun p => decide (p.id = pid)) = false) :
    ∀ l, partActions (parts ++ l) pid = partActions l pid := by
  induction parts with
  | nil => intro l; rfl
  | cons p ps ih =>
    intro l
    rw [List.any_cons, Bool.or_eq_false_iff] at h
    have hp : p.id ≠ pid := by simpa using h.1
    rw [List.cons_append]
    rw [show partActions (p :: (ps ++ l)) pid =
      if p.id = pid then p.actions else partActions (ps ++ l) pid from rfl,
      if_neg hp]
    exact ih h.2 l

theorem partActions_pushToFirst (parts : List Part) (pid : String) (a : Action)
    (h : parts.any (fun p => decide (p.id = pid)) = true) :
    partActions (pushToFirstPart parts pid a) pid = partActions parts pid ++ [a] := by
  induction parts with
  | nil => simp at h
  | cons p ps ih =>
    by_cases hp : p.id = pid
    · simp [pushToFirstPart, partActions, hp]
    · have hps : ps.any (fun p => decide (p.id = pid)) = true := by
        rw [List.any_cons] at h
        simpa [hp] using h
      simp only [pushToFirstPart, if_neg hp, partActions]
      exact ih hps

/-- Claim C10: `addAction` never fails.  It appends the action to the
first part with the given id, silently creating the part when absent (with
the supplied type, which the source defaults to `"html"` — restated by
`addActionDefaultType`), and each call appends exactly one action to that
part's list, so successive calls with the same part id accumulate in call
order. -/
theorem claim10_addAction_total (ag : Aggregator) (pid : String) (a : Action)
    (ty : PartType) :
    partActions (addAction ag pid a ty).scanData.parts pid =
      partActions ag.scanData.parts pid ++ [a] ∧
    (ag.scanData.parts.any (fun p => decide (p.id = pid)) = false →
      (addAction ag pid a ty).scanData.parts =
        ag.scanData.parts ++ [{ id := pid, type := ty, actions := [a] }]) ∧
    addActionDefaultType ag pid a = addAction ag pid a PartType.html := by
  refine ⟨?_, ?_, rfl⟩
  · by_cases hany : ag.scanData.parts.any (fun p => decide (p.id = pid)) = true
    · have h1 : (addAction ag pid a ty).scanData.parts =
          pushToFirstPart ag.scanData.parts pid a := by
        simp [addAction, hany]
      rw [h1]
      exact partActions_pushToFirst _ _ _ hany
    · rw [Bool.not_eq_true] at hany
      have h1 : (addAction ag pid a ty).scanData.parts =
          ag.scanData.parts ++ [{ id := pid, type := ty, actions := [a] }] := by
        simp [addAction, hany]
      have h2 : partActions ag.scanData.parts pid = [] := by
        have := partActions_of_none ag.scanData.parts pid hany []
        rwa [List.append_nil] at this
      rw [h1, partActions_of_none _ _ hany, h2]
      simp [partActions]
  · intro h
    simp [addAction, h]

/-- Claim C10 witness: adding an action under a part id unknown to the
empty aggregator creates the part and stores the action. -/
theorem claim10_witness :
    (initAggregator.scanData.parts.any
      (fun p => decide (p.id = "part_html_main")) = false) ∧
    partActions (addAction initAggregator "part_html_main"
        { actionId := "action_1_2", type := "input.value", data := "id=u" }
        PartType.html).scanData.parts "part_html_main" =
      partActions initAggregator.scanData.parts "part_html_main" ++
        [{ actionId := "action_1_2", type := "input.value", data := "id=u" }] ∧
    (addAction initAggregator "part_html_main"
        { actionId := "action_1_2", type := "input.value", data := "id=u" }
        PartType.html).scanData.parts =
      initAggregator.scanData.parts ++
        [{ id := "part_html_main", type := PartType.html,
           actions := [{ actionId := "action_1_2", type := "input.value",
                         data := "id=u" }] }] :=
  ⟨by decide,
   (claim10_addAction_total initAggregator "part_html_main"
     { actionId := "action_1_2", type := "input.value", data := "id=u" }
     PartType.html).1,
   (claim10_addAction_total initAggregator "part_html_main"
     { actionId := "action_1_2", type := "input.value", data := "id=u" }
     PartType.html).2.1 (by decide)⟩

/-- Claim C4 counterexample.  The trace: an unlinked request `W` to url
`u`; a cause whose stale-timestamped id gets mapped to `u`; a second
request `X` to `u` picking up that mapping; a cleanup sweep that evicts
`X`'s pending entry (its action id timestamp is stale); then `X`'s
response, which — its transport id no longer pending — falls back to a
url match and writes record 0 (`W`'s record); then `W`'s response writes
record 0 again.  Record 0's status is written twice, the second write
moving it from the terminal value 200 to the different terminal value
404; and a `requestfailed` for an unseen transport id creates a record
whose status starts at `-999`, not `-1`. -/
theorem claim4_counterexample :
    (runTrace initState
      [Event.hostRequest "W" "u" "fetch" "GET" 350000 1,
       Event.causeFired 1 5 "input.value" "id=u",
       Event.outbound "u",
       Event.hostRequest "X" "u" "fetch" "GET" 350001 2,
       Event.sweep 350002,
       Event.hostResponse "X" "u" 200,
       Event.hostResponse "W" "u" 404]).writeLog =
      [{ idx := 0, oldStatus := -1, newStatus := 200 },
       { idx := 0, oldStatus := 200, newStatus := 404 }] ∧
    (runTrace initState
      [Event.hostRequestFailed "Z" "u" "fetch" "GET" 7 8]).agg.scanData.requests =
      [{ actionId := "failed_7_8", url := "u", requestSource := "fetch",
         method := "GET", status := -999 }] := by
  constructor
  · decide
  · decide

/-- Claim C4, amended: records created by the request handler start at
`-1` (while `requestfailed`-fallback records are created directly at
`-999`), and on every disciplined trace — each response or failure event
finds its transport id still pending, and no cleanup sweep intervenes —
every status write moves a record from `-1` to a terminal value (an HTTP
status code or `-999`) and each record is written at most once, so no
record ever leaves a terminal value. -/
theorem claim4_amended_write_discipline (tr : List Event)
    (hd : disciplined initState tr = true) :
    (∀ w ∈ (runTrace initState tr).writeLog,
      w.oldStatus = -1 ∧ (0 ≤ w.newStatus ∨ w.newStatus = -999)) ∧
    (runTrace initState tr).writeLog.Pairwise (fun a b => a.idx ≠ b.idx) := by
  have h := runTrace_C4Inv tr initState initState_C4Inv hd
  exact ⟨h.logOk, h.logDistinct⟩

/-- Claim C4 witness: a disciplined request/response pair produces a
single resolved write from `-1`. -/
theorem claim4_witness :
    disciplined initState
      [Event.hostRequest "W" "u" "fetch" "GET" 1 1,
       Event.hostResponse "W" "u" 200] = true ∧
    (∀ w ∈ (runTrace initState
      [Event.hostRequest "W" "u" "fetch" "GET" 1 1,
       Event.hostResponse "W" "u" 200]).writeLog,
      w.oldStatus = -1 ∧ (0 ≤ w.newStatus ∨ w.newStatus = -999)) ∧
    (runTrace initState
      [Event.hostRequest "W" "u" "fetch" "GET" 1 1,
       Event.hostResponse "W" "u" 200]).writeLog.Pairwise
        (fun a b => a.idx ≠ b.idx) :=
  ⟨by decide,
   (claim4_amended_write_discipline _ (by decide)).1,
   (claim4_amended_write_discipline _ (by decide)).2⟩

theorem step_outbound_mappings (s : SysState) (url a : String)
    (h : s.current = some a) :
    (step s (Event.outbound url)).mappings = reportMapping s.mappings url a := by
  simp [step, h]

theorem step_hostRequest_requests (s : SysState) (rid url src method : String)
    (t r : Nat) (a : String) (h : mapLookup s.mappings url = some a) :
    (step s (Event.hostRequest rid url src method t r)).agg.scanData.requests =
      s.agg.scanData.requests ++
        [{ actionId := a, url := url, requestSource := src, method := method,
           status := -1 }] := by
  show (addRequest _ _).scanData.requests = _
  rw [addRequest_requests, createResourcePart_requests, h]

theorem step_hostRequest_pending (s : SysState) (rid url src method : String)
    (t r : Nat) :
    (step s (Event.hostRequest rid url src method t r)).pending =
      mapSet s.pending rid s.agg.scanData.requests.length := by
  show mapSet s.pending rid
    (createResourcePart s.agg s.partCounter url src).1.scanData.requests.length = _
  rw [createResourcePart_requests]

/-- Claim C1: take any reachable state, a cause A firing, then — with no
intervening cause and before A's grace timer fires (`tr1` keeps A's
context) — an outbound call to `url` (whose target is thereby reported to
the mapping store, A being current), then — with no event rewriting the
mapping store (`tr2` keeps mappings) — the host-level observation of that
call: the request record created for it carries A's action id. -/
theorem claim1_cause_links_request
    (tr0 tr1 tr2 : List Event) (t r : Nat) (ty data : String)
    (url rid src method : String) (t' r' : Nat)
    (s1 s2 s3 s4 s5 : SysState)
    (e1 : s1 = step (runTrace initState tr0) (Event.causeFired t r ty data))
    (e2 : s2 = runTrace s1 tr1)
    (e3 : s3 = step s2 (Event.outbound url))
    (e4 : s4 = runTrace s3 tr2)
    (e5 : s5 = step s4 (Event.hostRequest rid url src method t' r'))
    (h1 : tr1.all (keepsContext (mkActionId t r)) = true)
    (h2 : tr2.all keepsMappings = true) :
    s5.agg.scanData.requests.getLast? =
      some { actionId := mkActionId t r, url := url, requestSource := src,
             method := method, status := -1 } := by
  have hm0 : (runTrace initState tr0).mappings.length ≤ 1000 :=
    runTrace_mappings_len tr0 initState (by simp [initState])
  have hc1 : s1.current = some (mkActionId t r) := by
    rw [e1]
    rfl
  have hs1 : s1.stack.getLast? = some (mkActionId t r) := by
    rw [e1]
    exact List.getLast?_concat _
  have hm1 : s1.mappings.length ≤ 1000 := by
    rw [e1]
    exact hm0
  have hctx : s2.current = some (mkActionId t r) ∧
      s2.stack.getLast? = some (mkActionId t r) := by
    rw [e2]
    exact runTrace_context_preserved tr1 s1 _ h1 hc1 hs1
  have hm2 : s2.mappings.length ≤ 1000 := by
    rw [e2]
    exact runTrace_mappings_len tr1 s1 hm1
  have hmap3 : s3.mappings = reportMapping s2.mappings url (mkActionId t r) := by
    rw [e3]
    exact step_outbound_mappings s2 url _ hctx.1
  have hl3 : mapLookup s3.mappings url = some (mkActionId t r) := by
    rw [hmap3]
    exact mapLookup_reportMapping_self s2.mappings url _ hm2
  have hl4 : mapLookup s4.mappings url = some (mkActionId t r) := by
    rw [e4, runTrace_mappings_preserved tr2 s3 h2]
    exact hl3
  rw [e5, step_hostRequest_requests s4 rid url src method t' r' _ hl4]
  exact List.getLast?_concat _

/-- Claim C1 witness: concrete cause, outbound call and host observation
in immediate succession. -/
theorem claim1_witness :
    (([] : List Event).all (keepsContext (mkActionId 1 2)) = true) ∧
    (([] : List Event).all keepsMappings = true) ∧
    (step (runTrace (step (runTrace (step (runTrace initState [])
        (Event.causeFired 1 2 "input.value" "id=username")) [])
        (Event.outbound "https://api.x/data")) [])
      (Event.hostRequest "R1" "https://api.x/data" "fetch" "GET" 3 4)
      ).agg.scanData.requests.getLast? =
      some { actionId := mkActionId 1 2, url := "https://api.x/data",
             requestSource := "fetch", method := "GET", status := -1 } :=
  ⟨rfl, rfl,
   claim1_cause_links_request [] [] [] 1 2 "input.value" "id=username"
     "https://api.x/data" "R1" "fetch" "GET" 3 4
     _ _ _ _ _ rfl rfl rfl rfl rfl rfl rfl⟩

/-- Claim C5: when the cause's target was reported to the mapping store
before dispatch (A current at the outbound call) and the resulting host
request is later rejected by policy (`requestfailed`), the ledger holds a
request record bearing A's action id with the blocked sentinel `-999` —
the failure is recorded as data, and every handler involved is a total
function, so nothing is raised and the scan continues. -/
theorem claim5_blocked_still_linked
    (tr0 tr1 tr2 tr3 : List Event) (t r : Nat) (ty data : String)
    (url rid src method : String) (t' r' : Nat)
    (urlF srcF methodF : String) (tF rF : Nat)
    (s1 s2 s3 s4 s5 s6 s7 : SysState)
    (e1 : s1 = step (runTrace initState tr0) (Event.causeFired t r ty data))
    (e2 : s2 = runTrace s1 tr1)
    (e3 : s3 = step s2 (Event.outbound url))
    (e4 : s4 = runTrace s3 tr2)
    (e5 : s5 = step s4 (Event.hostRequest rid url src method t' r'))
    (e6 : s6 = runTrace s5 tr3)
    (e7 : s7 = step s6 (Event.hostRequestFailed rid urlF srcF methodF tF rF))
    (h1 : tr1.all (keepsContext (mkActionId t r)) = true)
    (h2 : tr2.all keepsMappings = true)
    (h3 : tr3.all (keepsPendingOf rid) = true) :
    ∃ rec ∈ s7.agg.scanData.requests,
      rec.actionId = mkActionId t r ∧ rec.url = url ∧ rec.status = -999 := by
  have hm0 : (runTrace initState tr0).mappings.length ≤ 1000 :=
    runTrace_mappings_len tr0 initState (by simp [initState])
  have hc1 : s1.current = some (mkActionId t r) := by
    rw [e1]
    rfl
  have hs1 : s1.stack.getLast? = some (mkActionId t r) := by
    rw [e1]
    exact List.getLast?_concat _
  have hm1 : s1.mappings.length ≤ 1000 := by
    rw [e1]
    exact hm0
  have hctx : s2.current = some (mkActionId t r) ∧
      s2.stack.getLast? = some (mkActionId t r) := by
    rw [e2]
    exact runTrace_context_preserved tr1 s1 _ h1 hc1 hs1
  have hm2 : s2.mappings.length ≤ 1000 := by
    rw [e2]
    exact runTrace_mappings_len tr1 s1 hm1
  have hl3 : mapLookup s3.mappings url = some (mkActionId t r) := by
    rw [e3, step_outbound_mappings s2 url _ hctx.1]
    exact mapLookup_reportMapping_self s2.mappings url _ hm2
  have hl4 : mapLookup s4.mappings url = some (mkActionId t r) := by
    rw [e4, runTrace_mappings_preserved tr2 s3 h2]
    exact hl3
  have hp5 : mapLookup s5.pending rid = some s4.agg.scanData.requests.length := by
    rw [e5, step_hostRequest_pending]
    exact mapLookup_mapSet_self _ _ _
  have hr5 : nth s5.agg.scanData.requests s4.agg.scanData.requests.length =
      some { actionId := mkActionId t r, url := url, requestSource := src,
             method := method, status := -1 } := by
    rw [e5, step_hostRequest_requests s4 rid url src method t' r' _ hl4]
    exact nth_append_length _ _
  have hpres := runTrace_pendingOf_preserved tr3 s5 rid
    s4.agg.scanData.requests.length _ h3 hp5 hr5
  have hreq7 : nth s7.agg.scanData.requests s4.agg.scanData.requests.length =
      some { actionId := mkActionId t r, url := url, requestSource := src,
             method := method, status := -999 } := by
    rw [← e6] at hpres
    rw [e7]
    simp only [step, hpres.1]
    show nth (writeStatusLogged s6 _ _).agg.scanData.requests _ = _
    rw [(writeStatusLogged_of_nth hpres.2 (-999)).1]
    exact nth_setNth_self _ hpres.2
  exact ⟨_, nth_mem hreq7, rfl, rfl, rfl⟩

/-- Claim C5 witness: concrete cause, outbound call, host observation and
policy rejection in immediate succession. -/
theorem claim5_witness :
    (([] : List Event).all (keepsContext (mkActionId 1 2)) = true) ∧
    ∃ rec ∈ (step (runTrace (step (runTrace (step (runTrace (step (runTrace
        initState []) (Event.causeFired 1 2 "input.value" "id=username")) [])
        (Event.outbound "https://evil.example/steal")) [])
      (Event.hostRequest "R1" "https://evil.example/steal" "fetch" "POST" 3 4)) [])
      (Event.hostRequestFailed "R1" "https://evil.example/steal" "fetch" "POST" 5 6)
      ).agg.scanData.requests,
      rec.actionId = mkActionId 1 2 ∧ rec.url = "https://evil.example/steal" ∧
        rec.status = -999 :=
  ⟨rfl,
   claim5_blocked_still_linked [] [] [] [] 1 2 "input.value" "id=username"
     "https://evil.example/steal" "R1" "fetch" "POST" 3 4
     "https://evil.example/steal" "fetch" "POST" 5 6
     _ _ _ _ _ _ _ rfl rfl rfl rfl rfl rfl rfl rfl rfl rfl⟩

/-- Claim C9: synthetic request ids (prefix `http_` from the request
handler, `failed_` from the requestfailed fallback) are syntactically
distinguishable by prefix from real action ids (prefix `action_`), and in
every state reachable from a fresh session, a request bearing a synthetic
id is not in the action-id set and is therefore excluded from the linked
filter whose length is the numerator of the linkage rate. -/
theorem claim9_synthetic_unlinked :
    (∀ t r, ∃ s, mkHttpId t r = "http_" ++ s) ∧
    (∀ t r, ∃ s, mkFailedId t r = "failed_" ++ s) ∧
    (∀ t r, ∃ s, mkActionId t r = "action_" ++ s) ∧
    (∀ t r t' r', mkHttpId t r ≠ mkActionId t' r' ∧
      mkFailedId t r ≠ mkActionId t' r') ∧
    (∀ (tr : List Event) (req : Request),
      req ∈ (runTrace initState tr).agg.scanData.requests →
      (∃ t r, req.actionId = mkHttpId t r ∨ req.actionId = mkFailedId t r) →
      req.actionId ∉ (runTrace initState tr).agg.actionIdSet ∧
      req ∉ (runTrace initState tr).agg.scanData.requests.filter
        (fun x => decide (x.actionId ∈ (runTrace initState tr).agg.actionIdSet))) := by
  refine ⟨fun t r => ⟨Nat.repr t ++ "_" ++ Nat.repr r, rfl⟩,
    fun t r => ⟨Nat.repr t ++ "_" ++ Nat.repr r, rfl⟩,
    fun t r => ⟨Nat.repr t ++ "_" ++ Nat.repr r, rfl⟩,
    fun t r t' r' => ⟨mkHttpId_ne_mkActionId t r t' r',
      mkFailedId_ne_mkActionId t r t' r'⟩, ?_⟩
  intro tr req hmem hsyn
  have hwf := runTrace_actionIdsWF tr initState initState_actionIdsWF
  have hnotin : req.actionId ∉ (runTrace initState tr).agg.actionIdSet := by
    intro hin
    obtain ⟨t', r', heq⟩ := hwf req.actionId hin
    obtain ⟨t, r, hsyn'⟩ := hsyn
    rcases hsyn' with h | h
    · exact mkHttpId_ne_mkActionId t r t' r' (h.symm.trans heq)
    · exact mkFailedId_ne_mkActionId t r t' r' (h.symm.trans heq)
  refine ⟨hnotin, ?_⟩
  intro hfil
  exact hnotin (by simpa using (List.mem_filter.mp hfil).2)

/-- Claim C9 witness: a causeless request gets the synthetic id
`http_5_7`, which is not in the action-id set and is excluded from the
linked filter. -/
theorem claim9_witness :
    ({ actionId := "http_5_7", url := "u", requestSource := "script",
       method := "GET", status := -1 } : Request) ∈
      (runTrace initState [Event.hostRequest "r1" "u" "script" "GET" 5 7]
        ).agg.scanData.requests ∧
    ("http_5_7" : String) = mkHttpId 5 7 ∧
    ({ actionId := "http_5_7", url := "u", requestSource := "script",
       method := "GET", status := -1 } : Request).actionId ∉
      (runTrace initState [Event.hostRequest "r1" "u" "script" "GET" 5 7]
        ).agg.actionIdSet ∧
    ({ actionId := "http_5_7", url := "u", requestSource := "script",
       method := "GET", status := -1 } : Request) ∉
      (runTrace initState [Event.hostRequest "r1" "u" "script" "GET" 5 7]
        ).agg.scanData.requests.filter
        (fun x => decide (x.actionId ∈
          (runTrace initState [Event.hostRequest "r1" "u" "script" "GET" 5 7]
            ).agg.actionIdSet)) :=
  ⟨by decide, by decide,
   (claim9_synthetic_unlinked.2.2.2.2
     [Event.hostRequest "r1" "u" "script" "GET" 5 7]
     { actionId := "http_5_7", url := "u", requestSource := "script",
       method := "GET", status := -1 }
     (by decide) ⟨5, 7, Or.inl (by decide)⟩).1,
   (claim9_synthetic_unlinked.2.2.2.2
     [Event.hostRequest "r1" "u" "script" "GET" 5 7]
     { actionId := "http_5_7", url := "u", requestSource := "script",
       method := "GET", status := -1 }
     (by decide) ⟨5, 7, Or.inl (by decide)⟩).2⟩

end BabyExplorer
